import Mathlib

/-!
Shallow embedding of the Perfit performance recorder (src/perfit.py):
the outlier filter `_filter_bad_data`, the per-call instrumentation
`wrapper` produced by `Perfit.__call__`, the recorder state `results`,
and the per-function statistics computed by `Perfit.prints`.
Float64 values are modelled as rationals.
-/

namespace Perfit

/-- The builtin `max(xs)` over a non-empty Python list (Python raises on
`[]`; the `[]` case here is an arbitrary value that callers guard). -/
def maxList (l : List ℚ) : ℚ :=
  match l with
  | [] => 0
  | x :: xs => xs.foldl max x

/-- The builtin `min(xs)` over a non-empty Python list. -/
def minList (l : List ℚ) : ℚ :=
  match l with
  | [] => 0
  | x :: xs => xs.foldl min x

/-- `np.median(values)`: sort ascending; odd length takes the middle
element, even length averages the two middle elements.  `np.median([])`
returns NaN in the source (with a RuntimeWarning, not an exception);
here the `[]` case yields an arbitrary value (0) which no caller ever
observes, since filtering an empty list is independent of the median. -/
def median (l : List ℚ) : ℚ :=
  let s := l.insertionSort (fun a b => a ≤ b)
  let n := s.length
  if n % 2 = 1 then s.getD (n / 2) 0
  else (s.getD (n / 2 - 1) 0 + s.getD (n / 2) 0) / 2

/-- `Perfit._filter_bad_data` (src/perfit.py lines 96-107):
`median_value = np.median(values); return [v for v in values if v <= median_value * self.badDataScaler]`. -/
def filter_bad_data (scaler : ℚ) (values : List ℚ) : List ℚ :=
  let median_value := median values
  values.filter (fun v => v ≤ median_value * scaler)

/-- `np.mean(l)` = sum divided by length. -/
def mean (l : List ℚ) : ℚ := l.sum / l.length

/-- The square of `np.std(l)` (default `ddof=0`): the population variance,
sum of squared deviations from the mean divided by N (not N-1).
`np.std` itself is the square root of this quantity; the square is
recorded because the square root of a rational is generally irrational. -/
def popVariance (l : List ℚ) : ℚ :=
  (l.map (fun x => (x - mean l) ^ 2)).sum / l.length

/-- One measurement appended per instrumented call:
`{"t": end_time - start_time, "m": mem_usage / 1024}`. -/
structure Sample where
  t : ℚ
  m : ℚ
deriving DecidableEq, Repr

/-- The recorder's `self.results` dict: an insertion-ordered mapping from
function name to its list of samples, modelled as an association list
(Python dicts preserve insertion order; keys are unique in any state
reachable from the empty dict). -/
abbrev Results := List (String × List Sample)

/-- The bookkeeping of src/perfit.py lines 86-91:
`if func.__name__ not in self.results: self.results[func.__name__] = []`
then `self.results[func.__name__].append(sample)`. -/
def recordSample (results : Results) (name : String) (s : Sample) : Results :=
  if (results.lookup name).isSome then
    results.map (fun p => if p.1 = name then (p.1, p.2 ++ [s]) else p)
  else
    results ++ [(name, [s])]

/-- The world the wrapper mutates: the recorder's `results` plus whether a
`tracemalloc` session is currently active. -/
structure World where
  results : Results
  tracing : Bool
deriving Repr

/-- The wrapper body of `Perfit.__call__` (src/perfit.py lines 71-94).
`start_time` is the `time.perf_counter()` reading captured on entry.
`call` is the outcome of `func(*args, **kwargs)` together with the
readings taken after it on the success path: `Except.error e` means the
target raised `e` (so `end_time` and the traced memory are never read,
and every statement after the call is skipped, including
`tracemalloc.stop()` and the append); `Except.ok (result, end_time,
mem_usage)` carries the return value, the end `perf_counter()` reading
and the peak traced bytes.  Returns the wrapper's outcome and the final
world. -/
def wrapper {ε α : Type} (w : World) (name : String) (start_time : ℚ)
    (call : Except ε (α × ℚ × ℚ)) : Except ε α × World :=
  let w1 : World := { w with tracing := true }
  match call with
  | Except.error e => (Except.error e, w1)
  | Except.ok (result, end_time, mem_usage) =>
      let w2 : World := { w1 with tracing := false }
      let s : Sample := { t := end_time - start_time, m := mem_usage / 1024 }
      (Except.ok result, { w2 with results := recordSample w2.results name s })

/-- The summary statistics printed per function. Field order mirrors the
`analysis` dict of `Perfit.prints`. -/
structure Analysis where
  count : ℕ
  totalTime : ℚ
  maxTime : ℚ
  minTime : ℚ
  averageTime : ℚ
  medianTime : ℚ
  timeVarianceSq : ℚ
  meanMemoryKB : ℚ
deriving DecidableEq, Repr

/-- The per-function statistics computation of `Perfit.prints`
(src/perfit.py lines 135-152): extract times and memories, outlier-filter
the times only, then build the analysis dict.  When zero samples remain
after filtering, Python raises `ValueError` at `max(times)` while
building the dict (there is no `InsufficientData` handling in the
source); this is modelled as the `Except.error` branch.
`timeVarianceSq` holds the square of `np.std(times)` (see `popVariance`). -/
def summarize (scaler : ℚ) (data : List Sample) : Except String Analysis :=
  let times := filter_bad_data scaler (data.map (fun e => e.t))
  let memories := data.map (fun e => e.m)
  if times = [] then
    Except.error "ValueError: max() arg is an empty sequence"
  else
    Except.ok
      { count := times.length
        totalTime := times.sum
        maxTime := maxList times
        minTime := minList times
        averageTime := mean times
        medianTime := median times
        timeVarianceSq := popVariance times
        meanMemoryKB := mean memories }

/-! Sanity checks from the spec's test vectors (§8). -/

example : median [(1 : ℚ), 2, 3, 10000] = 5 / 2 := by
  norm_num [median, List.insertionSort, List.orderedInsert]

example : filter_bad_data 10 [(1 : ℚ), 2, 3, 10000] = [1, 2, 3] := by
  norm_num [filter_bad_data, median, List.insertionSort, List.orderedInsert, List.filter]

example : filter_bad_data 1 [(5 : ℚ), 5, 5, 5] = [5, 5, 5, 5] := by
  norm_num [filter_bad_data, median, List.insertionSort, List.orderedInsert, List.filter]

/-! Helper lemmas. -/

/-- The median of a one-element list is that element. -/
theorem median_singleton (v : ℚ) : median [v] = v := by
  simp [median, List.insertionSort, List.orderedInsert]

theorem le_foldl_max (xs : List ℚ) (b : ℚ) : b ≤ xs.foldl max b := by
  induction xs generalizing b with
  | nil => exact le_refl b
  | cons x xs ih => exact le_trans (le_max_left b x) (ih (max b x))

theorem mem_le_foldl_max {xs : List ℚ} {a : ℚ} (h : a ∈ xs) (b : ℚ) :
    a ≤ xs.foldl max b := by
  induction xs generalizing b with
  | nil => cases h
  | cons x xs ih =>
    rcases List.mem_cons.mp h with rfl | h'
    · exact le_trans (le_max_right b a) (le_foldl_max xs (max b a))
    · exact ih h' (max b x)

/-- Every member of a list is bounded by the Python `max` of the list. -/
theorem mem_le_maxList {l : List ℚ} {a : ℚ} (h : a ∈ l) : a ≤ maxList l := by
  cases l with
  | nil => cases h
  | cons x xs =>
    rcases List.mem_cons.mp h with rfl | h'
    · exact le_foldl_max xs a
    · exact mem_le_foldl_max h' x

/-- C1: for every non-empty sequence of values and every `scaler >= 1`,
every element of `filter_bad_data scaler values` is at most
`median values * scaler`, and the output is a sublist of `values`
(a subsequence preserving the original relative order). -/
theorem filter_output_bounded_and_sublist (values : List ℚ) (scaler : ℚ)
    (hne : values ≠ []) (hs : 1 ≤ scaler) :
    (∀ v ∈ filter_bad_data scaler values, v ≤ median values * scaler) ∧
    (filter_bad_data scaler values).Sublist values := by
  constructor
  · intro v hv
    have h := List.mem_filter.mp hv
    exact of_decide_eq_true h.2
  · exact List.filter_sublist values

/-- Witness for C1 at `values = [1, 2, 3]`, `scaler = 1`. -/
theorem filter_output_bounded_and_sublist_witness :
    (∀ v ∈ filter_bad_data 1 [(1 : ℚ), 2, 3], v ≤ median [(1 : ℚ), 2, 3] * 1) ∧
    (filter_bad_data 1 [(1 : ℚ), 2, 3]).Sublist [(1 : ℚ), 2, 3] :=
  filter_output_bounded_and_sublist [1, 2, 3] 1 (by simp) (by norm_num)

/-- C6 counterexample: the claim "for every single-element `[v]` and every
`scaler >= 1` the filter retains the element" fails at `v = -1` with the
default `scaler = 1000`: the threshold `median * scaler = -1000` lies
below the element, so `-1 <= -1000` is false and the element is dropped. -/
theorem filter_singleton_negative_dropped :
    filter_bad_data 1000 [(-1 : ℚ)] ≠ [(-1 : ℚ)] := by
  norm_num [filter_bad_data, median, List.insertionSort, List.orderedInsert, List.filter]

/-- C6 (amended): for every single-element `[v]` with `v >= 0` and every
`scaler >= 1`, the filter retains the element, because the median of a
one-element sequence equals that element. -/
theorem filter_singleton_nonneg_retained (v scaler : ℚ)
    (hv : 0 ≤ v) (hs : 1 ≤ scaler) :
    filter_bad_data scaler [v] = [v] := by
  have hle : v ≤ v * scaler := le_mul_of_one_le_right hv hs
  have hmed : median [v] = v := median_singleton v
  simp [filter_bad_data, hmed, hle]

/-- Witness for the amended C6 at `v = 5`, `scaler = 1000`. -/
theorem filter_singleton_nonneg_retained_witness :
    filter_bad_data 1000 [(5 : ℚ)] = [(5 : ℚ)] :=
  filter_singleton_nonneg_retained 5 1000 (by norm_num) (by norm_num)

/-- C8: when the median is positive and
`scaler >= max(values) / median(values)`, the filter rejects nothing:
`filter_bad_data scaler values = values`. -/
theorem filter_identity_for_large_scaler (values : List ℚ) (scaler : ℚ)
    (hne : values ≠ []) (hmed : 0 < median values)
    (hs : maxList values / median values ≤ scaler) :
    filter_bad_data scaler values = values := by
  unfold filter_bad_data
  apply List.filter_eq_self.mpr
  intro a ha
  have h1 : a ≤ maxList values := mem_le_maxList ha
  have h2 : maxList values ≤ scaler * median values := (div_le_iff₀ hmed).mp hs
  have : a ≤ median values * scaler := by
    calc a ≤ maxList values := h1
    _ ≤ scaler * median values := h2
    _ = median values * scaler := mul_comm _ _
  exact decide_eq_true this

/-- Witness for C8 at `values = [1, 2]`, `scaler = 1000`
(median `3/2 > 0`, `max/median = 4/3 <= 1000`). -/
theorem filter_identity_for_large_scaler_witness :
    filter_bad_data 1000 [(1 : ℚ), 2] = [(1 : ℚ), 2] :=
  filter_identity_for_large_scaler [1, 2] 1000 (by simp)
    (by norm_num [median, List.insertionSort, List.orderedInsert])
    (by norm_num [maxList, median, List.insertionSort, List.orderedInsert])

/-- C9: on the empty input sequence the filter returns the empty sequence
for every scaler; it does not crash on the median of an empty sequence
(in the source `np.median([])` yields NaN with a warning, and the list
comprehension over `[]` is `[]` regardless of the threshold value). -/
theorem filter_empty_returns_empty (scaler : ℚ) :
    filter_bad_data scaler [] = [] := rfl

/-! Lookup lemmas for the insertion-ordered results mapping. -/

theorem lookup_map_update (results : Results) (name : String) (s : Sample) :
    (results.map (fun p => if p.1 = name then (p.1, p.2 ++ [s]) else p)).lookup name
      = (results.lookup name).map (fun l => l ++ [s]) := by
  induction results with
  | nil => rfl
  | cons p rest ih =>
    obtain ⟨k, v⟩ := p
    simp only [List.map_cons]
    by_cases hp : k = name
    · rw [if_pos hp]
      subst hp
      simp [List.lookup_cons]
    · rw [if_neg hp]
      have hb : (name == k) = false := beq_eq_false_iff_ne.mpr (Ne.symm hp)
      simp [List.lookup_cons, hb, ih]

theorem lookup_map_update_ne (results : Results) (name n : String) (s : Sample)
    (h : n ≠ name) :
    (results.map (fun p => if p.1 = name then (p.1, p.2 ++ [s]) else p)).lookup n
      = results.lookup n := by
  induction results with
  | nil => rfl
  | cons p rest ih =>
    obtain ⟨k, v⟩ := p
    simp only [List.map_cons]
    by_cases hp : k = name
    · rw [if_pos hp]
      have hb : (n == k) = false := beq_eq_false_iff_ne.mpr (hp ▸ h)
      simp [List.lookup_cons, hb, ih]
    · rw [if_neg hp]
      by_cases hk : n = k
      · subst hk
        simp [List.lookup_cons]
      · have hb : (n == k) = false := beq_eq_false_iff_ne.mpr hk
        simp [List.lookup_cons, hb, ih]

theorem keys_map_update (results : Results) (name : String) (s : Sample) :
    (results.map (fun p => if p.1 = name then (p.1, p.2 ++ [s]) else p)).map Prod.fst
      = results.map Prod.fst := by
  induction results with
  | nil => rfl
  | cons p rest ih =>
    simp only [List.map_cons]
    by_cases hp : p.1 = name
    · rw [if_pos hp]
      simp [hp, ih]
    · rw [if_neg hp]
      simp [ih]

theorem lookup_append_results (l₁ l₂ : Results) (n : String) :
    (l₁ ++ l₂).lookup n = (l₁.lookup n).or (l₂.lookup n) := by
  induction l₁ with
  | nil => simp
  | cons p rest ih =>
    obtain ⟨k, v⟩ := p
    by_cases hk : n = k
    · subst hk
      simp [List.lookup_cons]
    · have hb : (n == k) = false := beq_eq_false_iff_ne.mpr hk
      simp [List.lookup_cons, hb, ih]

/-- C2 evaluation at the failing input: for a function record with zero
samples (also the shape produced when every sample is filtered out), the
statistics computation raises the builtin `ValueError` from `max()` of an
empty sequence — there is no `InsufficientData` error anywhere in the
source. -/
theorem summarize_empty_record_raises_valueerror :
    summarize 1000 [] = Except.error "ValueError: max() arg is an empty sequence" := rfl

/-- C3: when the wrapped target raises, the wrapper propagates exactly
that failure to its caller, and the recorder's results are unchanged —
no Sample is appended for that call. -/
theorem wrapper_propagates_failure_without_append {ε α : Type} (w : World)
    (name : String) (start_time : ℚ) (e : ε) :
    (wrapper w name start_time (Except.error e : Except ε (α × ℚ × ℚ))).1
        = Except.error e ∧
    (wrapper w name start_time (Except.error e : Except ε (α × ℚ × ℚ))).2.results
        = w.results :=
  ⟨rfl, rfl⟩

/-- C4 evaluation at the failing input: starting with no active
memory-tracking session, an invocation whose target raises leaves the
session active on exit (`tracemalloc.stop()` runs only on the success
path), contradicting the claim that tracking is stopped on every exit
path. -/
theorem wrapper_failure_leaves_tracing_active :
    (wrapper { results := [], tracing := false } "f" 0
      (Except.error () : Except Unit (Unit × ℚ × ℚ))).2.tracing = true := rfl

/-- C7: one bookkeeping step of the wrapper preserves the recorder
invariants: the key sequence is unchanged when the name is present and
grows only by appending the new name at the end when absent (insert-only,
lazily created, insertion order = call order, never shrinks); the named
record's samples get the new sample appended at the end (append-only);
every other record is untouched.  The step is keyed solely on the
declared name, so two distinct callables sharing a name append to the
same record. -/
theorem recordSample_insert_append_invariants (results : Results)
    (name : String) (s : Sample) :
    ((recordSample results name s).map Prod.fst =
      if (results.lookup name).isSome then results.map Prod.fst
      else results.map Prod.fst ++ [name]) ∧
    (recordSample results name s).lookup name =
      some (((results.lookup name).getD []) ++ [s]) ∧
    (∀ n, n ≠ name → (recordSample results name s).lookup n = results.lookup n) := by
  by_cases h : (results.lookup name).isSome = true
  · obtain ⟨l, hl⟩ := Option.isSome_iff_exists.mp h
    refine ⟨?_, ?_, ?_⟩
    · simp only [recordSample]
      rw [if_pos h, if_pos h]
      exact keys_map_update results name s
    · simp only [recordSample]
      rw [if_pos h, lookup_map_update, hl]
      simp
    · intro n hn
      simp only [recordSample]
      rw [if_pos h]
      exact lookup_map_update_ne results name n s hn
  · have hnone : results.lookup name = none := Option.not_isSome_iff_eq_none.mp h
    refine ⟨?_, ?_, ?_⟩
    · simp only [recordSample]
      rw [if_neg h, if_neg h]
      simp
    · simp only [recordSample]
      rw [if_neg h, lookup_append_results, hnone]
      simp [List.lookup_cons]
    · intro n hn
      have hb : (n == name) = false := beq_eq_false_iff_ne.mpr hn
      simp only [recordSample]
      rw [if_neg h, lookup_append_results]
      simp [List.lookup_cons, hb]

/-- Witness for C7: applying the invariant step at a concrete state. -/
theorem recordSample_insert_append_invariants_witness :
    (recordSample [] "f" { t := 1, m := 2 }).lookup "g" = List.lookup "g" [] :=
  (recordSample_insert_append_invariants [] "f" { t := 1, m := 2 }).2.2 "g"
    (by decide)

/-! Nonnegativity of recorded samples (C10). -/

/-- A sample with nonnegative duration and memory. -/
def goodSample (s : Sample) : Prop := 0 ≤ s.t ∧ 0 ≤ s.m

/-- Every sample stored in the results mapping is nonnegative. -/
def goodResults (rs : Results) : Prop := ∀ p ∈ rs, ∀ s ∈ p.2, goodSample s

/-- One invocation of a wrapped callable: the declared name, the
`perf_counter()` reading on entry, and the outcome of the call with the
end-time and peak-bytes readings on the success path. -/
abbrev CallEvent := String × ℚ × Except Unit (Unit × ℚ × ℚ)

/-- A sequence of invocations of wrapped callables against one recorder. -/
def runCalls (w : World) (calls : List CallEvent) : World :=
  calls.foldl (fun w c => (wrapper w c.1 c.2.1 c.2.2).2) w

theorem goodResults_recordSample {rs : Results} {s : Sample} (name : String)
    (h : goodResults rs) (hs : goodSample s) :
    goodResults (recordSample rs name s) := by
  unfold recordSample
  by_cases hl : (rs.lookup name).isSome = true
  · rw [if_pos hl]
    intro p hp s' hs'
    obtain ⟨q, hq, rfl⟩ := List.mem_map.mp hp
    by_cases hq1 : q.1 = name
    · rw [if_pos hq1] at hs'
      rcases List.mem_append.mp hs' with h' | h'
      · exact h q hq s' h'
      · rw [List.mem_singleton.mp h']
        exact hs
    · rw [if_neg hq1] at hs'
      exact h q hq s' hs'
  · rw [if_neg hl]
    intro p hp s' hs'
    rcases List.mem_append.mp hp with h' | h'
    · exact h p h' s' hs'
    · rw [List.mem_singleton.mp h'] at hs'
      rw [List.mem_singleton.mp hs']
      exact hs

theorem goodResults_wrapper {ε α : Type} (w : World) (name : String)
    (start_time : ℚ) (call : Except ε (α × ℚ × ℚ)) (hw : goodResults w.results)
    (hcall : ∀ r end_time mem, call = Except.ok (r, end_time, mem) →
      start_time ≤ end_time ∧ 0 ≤ mem) :
    goodResults (wrapper w name start_time call).2.results := by
  cases call with
  | error e => exact hw
  | ok x =>
    obtain ⟨r, end_time, mem⟩ := x
    have h := hcall r end_time mem rfl
    show goodResults (recordSample w.results name
      { t := end_time - start_time, m := mem / 1024 })
    exact goodResults_recordSample name hw
      ⟨sub_nonneg.mpr h.1, div_nonneg h.2 (by norm_num)⟩

theorem runCalls_good (calls : List CallEvent) (w : World)
    (hw : goodResults w.results)
    (h : ∀ c ∈ calls, ∀ r end_time mem, c.2.2 = Except.ok (r, end_time, mem) →
      c.2.1 ≤ end_time ∧ 0 ≤ mem) :
    goodResults (runCalls w calls).results := by
  induction calls generalizing w with
  | nil => exact hw
  | cons c rest ih =>
    show goodResults (runCalls (wrapper w c.1 c.2.1 c.2.2).2 rest).results
    apply ih
    · exact goodResults_wrapper w c.1 c.2.1 c.2.2 hw (h c (List.mem_cons_self c rest))
    · intro c' hc'
      exact h c' (List.mem_cons_of_mem c hc')

/-- C10: over every sequence of wrapped calls in which each successful
call's end clock reading is at least its start reading (the clock is
monotonic) and each peak traced byte count is nonnegative, every sample
stored in the recorder — built as `{t = end - start, m = peak / 1024}` —
has nonnegative duration and nonnegative memory. -/
theorem wrapper_samples_nonneg (calls : List CallEvent)
    (h : ∀ c ∈ calls, ∀ r end_time mem, c.2.2 = Except.ok (r, end_time, mem) →
      c.2.1 ≤ end_time ∧ 0 ≤ mem) :
    goodResults (runCalls { results := [], tracing := false } calls).results :=
  runCalls_good calls { results := [], tracing := false }
    (fun p hp => absurd hp (List.not_mem_nil p)) h

/-- Witness for C10: a trace with one successful call, one failing call
and a second function, all with monotone clock readings. -/
theorem wrapper_samples_nonneg_witness :
    goodResults (runCalls { results := [], tracing := false }
      [("f", 0, Except.ok ((), 1, 2048)), ("f", 1, Except.error ()),
       ("g", 2, Except.ok ((), 5, 0))]).results :=
  wrapper_samples_nonneg _ (by
    intro c hc r end_time mem heq
    rcases List.mem_cons.mp hc with rfl | hc
    · obtain ⟨rfl, rfl, rfl⟩ : r = () ∧ end_time = 1 ∧ mem = 2048 := by
        simpa using heq.symm
      norm_num
    rcases List.mem_cons.mp hc with rfl | hc
    · simp at heq
    rcases List.mem_cons.mp hc with rfl | hc
    · obtain ⟨rfl, rfl, rfl⟩ : r = () ∧ end_time = 5 ∧ mem = 0 := by
        simpa using heq.symm
      norm_num
    · cases hc)

/-- C5: whenever samples remain after filtering, `summarize` reports the
count, sum, max, min, arithmetic mean, median and population variance
(the square of the population standard deviation, divide by N) of the
outlier-filtered duration values, and the arithmetic mean of the
unfiltered memory values; in particular two calls with durations
`[0.01, 0.02]` and memory `[10, 20]` KB summarized at `scaler = 1000`
give `count = 2`, total time `0.03` and mean memory `15`. -/
theorem summarize_statistics_fields (scaler : ℚ) (data : List Sample)
    (h : filter_bad_data scaler (data.map (fun e => e.t)) ≠ []) :
    (summarize scaler data = Except.ok
      { count := (filter_bad_data scaler (data.map (fun e => e.t))).length
        totalTime := (filter_bad_data scaler (data.map (fun e => e.t))).sum
        maxTime := maxList (filter_bad_data scaler (data.map (fun e => e.t)))
        minTime := minList (filter_bad_data scaler (data.map (fun e => e.t)))
        averageTime := mean (filter_bad_data scaler (data.map (fun e => e.t)))
        medianTime := median (filter_bad_data scaler (data.map (fun e => e.t)))
        timeVarianceSq := popVariance (filter_bad_data scaler (data.map (fun e => e.t)))
        meanMemoryKB := mean (data.map (fun e => e.m)) }) ∧
    summarize 1000 [{ t := 1/100, m := 10 }, { t := 2/100, m := 20 }] = Except.ok
      { count := 2, totalTime := 3/100, maxTime := 1/50, minTime := 1/100,
        averageTime := 3/200, medianTime := 3/200, timeVarianceSq := 1/40000,
        meanMemoryKB := 15 } := by
  constructor
  · simp only [summarize]
    rw [if_neg h]
  · norm_num [summarize, filter_bad_data, median, mean, popVariance, maxList, minList,
      List.insertionSort, List.orderedInsert, List.filter, max_def, min_def,
      Analysis.mk.injEq]
    intro hc
    simp at hc

/-- Witness for C5 at `scaler = 1`, `data = [{t := 1, m := 1}]`. -/
theorem summarize_statistics_fields_witness :
    summarize 1000 [{ t := 1/100, m := 10 }, { t := 2/100, m := 20 }] = Except.ok
      { count := 2, totalTime := 3/100, maxTime := 1/50, minTime := 1/100,
        averageTime := 3/200, medianTime := 3/200, timeVarianceSq := 1/40000,
        meanMemoryKB := 15 } :=
  (summarize_statistics_fields 1 [{ t := 1, m := 1 }] (by
    norm_num [filter_bad_data, median, List.insertionSort, List.orderedInsert,
      List.filter])).2

end Perfit
